import Mathlib

/-!
# Auto Editor — verification of the edit-decision engine

Shallow embedding of the auto-editor frontend core: the Segment Store and
its toggle operations (`EditorScreen.jsx`), the transcript word-removal
display logic (`Transcript.jsx`), the playback seek logic, and the
workflow state machine (`App.jsx`).  Times are modelled as rationals;
JavaScript objects become structures; the React component-mount semantics
of `App.jsx` (a screen's local state is created on mount and discarded on
unmount) is made explicit by a `render` function.
-/

namespace AutoEditor

/-- A segment of the edit-decision list, as produced by analysis and held in
`EditorScreen`'s `segments` state: `{start, end, keep, is_silence, text}`. -/
structure Segment where
  start : ℚ
  «end» : ℚ
  keep : Bool
  is_silence : Bool
  text : Option String
deriving DecidableEq, Repr

/-- Embeds `EditorScreen.toggleSegment(index)`:
`prev.map((seg, i) => i === index ? { ...seg, keep: !seg.keep } : seg)`. -/
def toggleSegment (index : ℕ) (segs : List Segment) : List Segment :=
  segs.mapIdx fun i seg => if i = index then { seg with keep := !seg.keep } else seg

/-- Embeds `EditorScreen.toggleWordRange(startTime, endTime)`:
`prev.map(seg => seg.start >= startTime && seg.end <= endTime ? { ...seg, keep: !seg.keep } : seg)`. -/
def toggleWordRange (startTime endTime : ℚ) (segs : List Segment) : List Segment :=
  segs.map fun seg =>
    if startTime ≤ seg.start ∧ seg.«end» ≤ endTime then { seg with keep := !seg.keep } else seg

/-- One user edit on the Segment Store: a timeline tap (`toggleSegment`) or a
transcript range selection (`toggleWordRange`). -/
inductive EditOp where
  | toggle (index : ℕ)
  | toggleRange (startTime endTime : ℚ)
deriving Repr

/-- Apply a single edit operation. -/
def applyEdit : EditOp → List Segment → List Segment
  | EditOp.toggle i, segs => toggleSegment i segs
  | EditOp.toggleRange a b, segs => toggleWordRange a b segs

/-- Apply a finite sequence of edit operations, oldest first. -/
def applyEdits (ops : List EditOp) (segs : List Segment) : List Segment :=
  ops.foldl (fun cur op => applyEdit op cur) segs

/-- Embeds `EditorScreen.keptDuration`:
`segments.filter(s => s.keep).reduce((acc, s) => acc + (s.end - s.start), 0)`. -/
def keptDuration (segs : List Segment) : ℚ :=
  (segs.filter fun s => s.keep).foldl (fun acc s => acc + (s.«end» - s.start)) 0

/-- Embeds `EditorScreen.removedDuration`: `totalDuration - keptDuration`. -/
def removedDuration (totalDuration : ℚ) (segs : List Segment) : ℚ :=
  totalDuration - keptDuration segs

/-- Embeds `Transcript.removedRanges`:
`segments.filter(s => !s.keep).map(s => ({ start: s.start, end: s.end }))`. -/
def removedRanges (segs : List Segment) : List (ℚ × ℚ) :=
  (segs.filter fun s => !s.keep).map fun s => (s.start, s.«end»)

/-- Embeds `Transcript.isWordRemoved(start, end)`:
`removedRanges.some(range => start >= range.start && end <= range.end)`. -/
def isWordRemoved (segs : List Segment) (start stop : ℚ) : Bool :=
  (removedRanges segs).any fun range => decide (range.1 ≤ start ∧ stop ≤ range.2)

/-- Spec-side reading of "the word's time range is fully enclosed by the
removed (keep = false) ranges": every instant of `[start, stop)` lies inside
some removed segment's `[start, end)` range (enclosure by the union). -/
def enclosedByRemovedRanges (segs : List Segment) (start stop : ℚ) : Prop :=
  ∀ t : ℚ, start ≤ t → t < stop → ∃ s ∈ segs, s.keep = false ∧ s.start ≤ t ∧ t < s.«end»

/-- The fields of a segment other than `keep`; user edits must preserve this
projection. -/
def stripKeep (s : Segment) : ℚ × ℚ × Bool × Option String :=
  (s.start, s.«end», s.is_silence, s.text)

/-- The analysis result held in `App`'s `projectData` state: `{duration,
segments, ...}` (the transcript plays no role in the claims below; `segments`
is optional because `EditorScreen` guards it with `projectData.segments || []`). -/
structure ProjectData where
  duration : ℚ
  segments : Option (List Segment)
deriving DecidableEq, Repr

/-- The local state of a mounted `EditorScreen`: its `segments` edit list,
the React `currentTime` state, and the media element's mirrored position
(the value last assigned to `videoRef.current.currentTime`). -/
structure EditorState where
  segments : List Segment
  currentTime : ℚ
  videoTime : ℚ
deriving DecidableEq, Repr

/-- Mounting `EditorScreen`: `useState(projectData.segments || [])` seeds the
segment list; `currentTime` starts at 0. -/
def mountEditor (pd : ProjectData) : EditorState :=
  { segments := pd.segments.getD [], currentTime := 0, videoTime := 0 }

/-- Embeds `EditorScreen.seekTo(time)`:
`videoRef.current.currentTime = time; setCurrentTime(time)`. -/
def seekTo (time : ℚ) (ed : EditorState) : EditorState :=
  { ed with videoTime := time, currentTime := time }

/-- Embeds `EditorScreen.resetEdits()`: `setSegments(projectData.segments || [])`;
purely local, no collaborator call. -/
def resetEdits (pd : ProjectData) (ed : EditorState) : EditorState :=
  { ed with segments := pd.segments.getD [] }

/-- Embeds `Timeline.handleTimelineClick`: the time handed to `onSeek` is
`Math.max(0, Math.min((clientX - rect.left + scrollLeft) / pixelsPerSecond, duration))`. -/
def handleTimelineClick (clientX rectLeft scrollLeft pixelsPerSecond duration : ℚ) : ℚ :=
  max 0 (min ((clientX - rectLeft + scrollLeft) / pixelsPerSecond) duration)

/-- The `App` component's `screen` state: `'upload' | 'processing' | 'editor'`.  Here `upload` is
the spec's Idle state, `processing` covers Uploading/Analyzing/Exporting, and
`editor` is Editing. -/
inductive Screen where
  | upload
  | processing
  | editor
deriving DecidableEq, Repr

/-- The whole client state: `App`'s four `useState` cells plus the local state
of the `EditorScreen` child when (and only when) it is mounted. -/
structure AppState where
  screen : Screen
  projectId : Option String
  projectData : Option ProjectData
  error : Option String
  editor : Option EditorState
deriving DecidableEq, Repr

/-- React render/mount semantics of `App`'s JSX: `EditorScreen` is rendered
exactly when `screen === 'editor' && projectData`; entering that condition
mounts it with fresh local state, leaving it unmounts it and discards the
local state, and staying in it preserves the state. -/
def render (s : AppState) : AppState :=
  match s.screen, s.projectData with
  | Screen.editor, some pd => { s with editor := some (s.editor.getD (mountEditor pd)) }
  | _, _ => { s with editor := none }

/-- Fallback chain for a caught error: embeds
`err.response?.data?.detail || err.message || fallback` with the collaborator
failure collapsed to a single message string. -/
def errMessage (msg fallback : String) : String :=
  if msg = "" then fallback else msg

/-- Default message of `App.handleUpload`'s catch clause. -/
def uploadFallback : String :=
  "Upload failed"

/-- Default message of `App.handleExport`'s catch clause. -/
def exportFallback : String :=
  "Export failed"

/-- Embeds `App.handleUpload(files, silenceThreshold)`, with the two collaborator
calls (`api.uploadVideos`, `api.analyzeVideo`) abstracted by their outcomes.
Each `setState` batch is followed by a `render`. -/
def handleUpload (s : AppState) (uploadResult : Except String String)
    (analyzeResult : String → Except String ProjectData) : AppState :=
  let s1 := render { s with error := none, screen := Screen.processing }
  match uploadResult with
  | Except.error msg =>
      render { s1 with error := some (errMessage msg uploadFallback), screen := Screen.upload }
  | Except.ok pid =>
      let s2 := render { s1 with projectId := some pid }
      match analyzeResult pid with
      | Except.error msg =>
          render { s2 with error := some (errMessage msg uploadFallback), screen := Screen.upload }
      | Except.ok pd =>
          render { s2 with projectData := some pd, screen := Screen.editor }

/-- Embeds `App.handleExport(segments)`, reachable only from a mounted editor (the
export button), with `api.updateSegments` (persist) and `api.exportVideo`
abstracted by their outcomes.  The success branch is taken past the 2-second
cool-down timeout.  Note the editor unmounts when `screen` becomes
`processing` and remounts from `projectData` on the failure branches. -/
def handleExport (s : AppState) (persistResult : Except String Unit)
    (exportResult : Except String String) : AppState :=
  match s.editor with
  | none => s
  | some _ed =>
    let s1 := render { s with error := none, screen := Screen.processing }
    match persistResult with
    | Except.error msg =>
        render { s1 with error := some (errMessage msg exportFallback), screen := Screen.editor }
    | Except.ok _ =>
      match exportResult with
      | Except.error msg =>
          render { s1 with error := some (errMessage msg exportFallback), screen := Screen.editor }
      | Except.ok _downloadUrl =>
          render { s1 with screen := Screen.upload, projectId := none, projectData := none }

/-- Embeds `App.handleReset()`: the fire-and-forget `api.deleteProject` has no local
effect; locally everything is cleared and the upload screen is shown. -/
def handleReset (s : AppState) : AppState :=
  render { s with screen := Screen.upload, projectId := none, projectData := none, error := none }

/-- A `setSegments` update performed inside the mounted `EditorScreen`
(timeline tap or transcript selection); a no-op when the editor is unmounted. -/
def editSegments (f : List Segment → List Segment) (s : AppState) : AppState :=
  { s with editor := s.editor.map fun ed => { ed with segments := f ed.segments } }

/-- The state of a fresh session: upload screen, no project, no error. -/
def initialState : AppState :=
  { screen := Screen.upload, projectId := none, projectData := none, error := none, editor := none }

/-- The Editing state for project `pid` with analysis result `pd`: exactly
`handleUpload initialState (ok pid) (fun _ => ok pd)`. -/
def editingState (pid : String) (pd : ProjectData) : AppState :=
  { screen := Screen.editor, projectId := some pid, projectData := some pd,
    error := none, editor := some (mountEditor pd) }

/-- Sample project id for concrete scenarios. -/
def samplePid : String :=
  "p1"

/-- Sample transport-failure message for concrete scenarios. -/
def sampleErr : String :=
  "network error"

/-- Helper: a left fold accumulating segment lengths equals the accumulator
plus the sum of the lengths. -/
theorem foldl_add_segments (l : List Segment) (acc : ℚ) :
    l.foldl (fun a s => a + (s.«end» - s.start)) acc
      = acc + (l.map fun s => s.«end» - s.start).sum := by
  induction l generalizing acc with
  | nil => simp
  | cons s t ih => simp only [List.foldl_cons, List.map_cons, List.sum_cons, ih]; ring

/-- Helper: `toggleSegment` preserves the length of the list. -/
theorem length_toggleSegment (index : ℕ) (segs : List Segment) :
    (toggleSegment index segs).length = segs.length := by
  simp [toggleSegment]

/-- Helper: element-wise description of `toggleSegment`. -/
theorem getElem?_toggleSegment (index : ℕ) (segs : List Segment) (j : ℕ) :
    (toggleSegment index segs)[j]? = Option.map
      (fun seg => if j = index then { seg with keep := !seg.keep } else seg) segs[j]? := by
  simp [toggleSegment, List.getElem?_mapIdx]

/-- Helper: `toggleSegment` with an out-of-range index returns the list
unchanged. -/
theorem toggleSegment_of_length_le (index : ℕ) (segs : List Segment)
    (h : segs.length ≤ index) : toggleSegment index segs = segs := by
  apply List.ext_getElem?
  intro n
  rw [getElem?_toggleSegment]
  cases hn : segs[n]? with
  | none => rfl
  | some s =>
    have hlt : n < segs.length := by
      by_contra hge
      rw [List.getElem?_eq_none (by omega)] at hn
      simp at hn
    have hne : n ≠ index := by omega
    simp [hne]

/-- Helper: `toggleWordRange` preserves the length of the list. -/
theorem length_toggleWordRange (a b : ℚ) (segs : List Segment) :
    (toggleWordRange a b segs).length = segs.length := by
  simp [toggleWordRange]

/-- Helper: element-wise description of `toggleWordRange`. -/
theorem getElem?_toggleWordRange (a b : ℚ) (segs : List Segment) (j : ℕ) :
    (toggleWordRange a b segs)[j]? = Option.map
      (fun seg => if a ≤ seg.start ∧ seg.«end» ≤ b then { seg with keep := !seg.keep } else seg)
      segs[j]? := by
  simp [toggleWordRange]

/-- Helper: a `mapIdx` whose function preserves every field but `keep`
preserves the `stripKeep` projection of the list. -/
theorem map_stripKeep_mapIdx (f : ℕ → Segment → Segment)
    (hf : ∀ i s, stripKeep (f i s) = stripKeep s) (segs : List Segment) :
    (segs.mapIdx f).map stripKeep = segs.map stripKeep := by
  induction segs generalizing f with
  | nil => rfl
  | cons s t ih =>
    rw [List.mapIdx_cons, List.map_cons, List.map_cons, hf,
      ih (fun i => f (i + 1)) (fun i s => hf (i + 1) s)]

/-- C5: `toggleRange(a, b)` flips `keep` for exactly the segments whose
`[start, end)` is fully contained in `[a, b]` (`a ≤ start` and `end ≤ b`),
and returns every other segment — in particular every segment only partially
overlapping the range — completely unchanged, preserving the list length. -/
theorem toggleWordRange_flips_exactly_contained (segs : List Segment) (a b : ℚ) (i : ℕ) :
    (toggleWordRange a b segs).length = segs.length ∧
    (toggleWordRange a b segs)[i]? = Option.map
      (fun seg => if a ≤ seg.start ∧ seg.«end» ≤ b then { seg with keep := !seg.keep } else seg)
      segs[i]? :=
  ⟨length_toggleWordRange a b segs, getElem?_toggleWordRange a b segs i⟩

/-- C9: `toggle(i)` flips `keep` for the segment at position `i` and leaves
every other position unchanged; when `i` is out of range it is a silent
no-op, returning the segment list unchanged. -/
theorem toggleSegment_flips_index_or_noop (segs : List Segment) (i j : ℕ) :
    (toggleSegment i segs).length = segs.length ∧
    (toggleSegment i segs)[j]? = Option.map
      (fun seg => if j = i then { seg with keep := !seg.keep } else seg) segs[j]? ∧
    (segs.length ≤ i → toggleSegment i segs = segs) :=
  ⟨length_toggleSegment i segs, getElem?_toggleSegment i segs j,
   fun h => toggleSegment_of_length_le i segs h⟩

/-- Witness for C9 at a concrete input: one segment, index 5 out of range. -/
theorem toggleSegment_flips_index_or_noop_witness :
    ([(⟨0, 4, true, false, none⟩ : Segment)].length ≤ 5) ∧
    toggleSegment 5 [(⟨0, 4, true, false, none⟩ : Segment)]
      = [(⟨0, 4, true, false, none⟩ : Segment)] :=
  ⟨by decide,
   (toggleSegment_flips_index_or_noop [(⟨0, 4, true, false, none⟩ : Segment)] 5 0).2.2 (by decide)⟩

/-- C8: every user edit — a `toggle(i)` or a `toggleRange(a, b)` — changes at
most the `keep` flags: the number of segments and, position by position, each
segment's `start`, `end`, `is_silence` and `text` fields are unchanged. -/
theorem edits_change_only_keep (op : EditOp) (segs : List Segment) :
    (applyEdit op segs).length = segs.length ∧
    (applyEdit op segs).map stripKeep = segs.map stripKeep := by
  cases op with
  | toggle i =>
    refine ⟨length_toggleSegment i segs, ?_⟩
    refine map_stripKeep_mapIdx
      (fun idx seg => if idx = i then { seg with keep := !seg.keep } else seg)
      (fun idx s => ?_) segs
    show stripKeep (if idx = i then { s with keep := !s.keep } else s) = stripKeep s
    split <;> rfl
  | toggleRange a b =>
    refine ⟨length_toggleWordRange a b segs, ?_⟩
    rw [applyEdit, toggleWordRange, List.map_map]
    exact List.map_congr_left fun s _ => by dsimp only [Function.comp]; split <;> rfl

/-- C6: after any sequence of mutations, `keptDuration` is the sum of
`end - start` over the segments with `keep = true`, `removedDuration` is
`duration - keptDuration`, and the two always add back up to `duration`. -/
theorem stats_partition (d : ℚ) (segs : List Segment) (ops : List EditOp) :
    keptDuration (applyEdits ops segs)
        = (((applyEdits ops segs).filter fun s => s.keep).map fun s => s.«end» - s.start).sum ∧
    removedDuration d (applyEdits ops segs) = d - keptDuration (applyEdits ops segs) ∧
    keptDuration (applyEdits ops segs) + removedDuration d (applyEdits ops segs) = d := by
  refine ⟨?_, rfl, ?_⟩
  · rw [keptDuration, foldl_add_segments, zero_add]
  · rw [removedDuration]; ring

/-- C7: after any finite sequence of toggle / toggleRange edits, `reset()`
restores the segment list — in particular every segment's `keep` flag — to
exactly the value seeded from the original analysis result, without any
collaborator interaction (it replays the `projectData` baseline). -/
theorem resetEdits_restores_baseline (pd : ProjectData) (ops : List EditOp) (ct vt : ℚ) :
    (resetEdits pd
      { segments := applyEdits ops (mountEditor pd).segments,
        currentTime := ct, videoTime := vt }).segments = (mountEditor pd).segments :=
  rfl

/-- C10: on a list of well-formed segments (`start < end`), `toggleRange(a, b)`
with an empty or inverted range (`b ≤ a`) leaves every segment unchanged:
no segment can be fully contained in such a range. -/
theorem toggleWordRange_inverted_range_noop (segs : List Segment) (a b : ℚ)
    (hwf : ∀ s ∈ segs, s.start < s.«end») (hba : b ≤ a) :
    toggleWordRange a b segs = segs := by
  rw [toggleWordRange]
  have h : ∀ s ∈ segs,
      (fun seg => if a ≤ seg.start ∧ seg.«end» ≤ b then { seg with keep := !seg.keep } else seg) s
        = id s := by
    intro s hs
    simp only [id]
    rw [if_neg]
    rintro ⟨h1, h2⟩
    have := hwf s hs
    linarith
  rw [List.map_congr_left h, List.map_id]

/-- Witness for C10 at a concrete input: one well-formed segment, range
`[3, 1]` inverted. -/
theorem toggleWordRange_inverted_range_noop_witness :
    ((∀ s ∈ [(⟨0, 4, true, false, none⟩ : Segment)], s.start < s.«end») ∧ (1 : ℚ) ≤ 3) ∧
    toggleWordRange 3 1 [(⟨0, 4, true, false, none⟩ : Segment)]
      = [(⟨0, 4, true, false, none⟩ : Segment)] :=
  ⟨⟨by decide, by norm_num⟩,
   toggleWordRange_inverted_range_noop [(⟨0, 4, true, false, none⟩ : Segment)] 3 1
     (by decide) (by norm_num)⟩

/-- C4 counterexample: with two adjacent removed segments `[0,4)` and `[4,6)`,
the word `[3, 5)` is fully enclosed by the union of the removed ranges, yet
`isWordRemoved` classifies it as kept — the claimed iff fails. -/
theorem isWordRemoved_misses_union_enclosure :
    enclosedByRemovedRanges
        [(⟨0, 4, false, false, none⟩ : Segment), ⟨4, 6, false, false, none⟩] 3 5 ∧
    isWordRemoved
        [(⟨0, 4, false, false, none⟩ : Segment), ⟨4, 6, false, false, none⟩] 3 5
      = false := by
  constructor
  · intro t h1 h2
    rcases lt_or_le t 4 with h | h
    · exact ⟨⟨0, 4, false, false, none⟩, List.mem_cons_self _ _, rfl,
        by show (0 : ℚ) ≤ t; linarith, h⟩
    · exact ⟨⟨4, 6, false, false, none⟩, List.mem_cons_of_mem _ (List.mem_cons_self _ _),
        rfl, h, by show t < (6 : ℚ); linarith⟩
  · decide

/-- C4 (amended): `isWordRemoved(start, end)` is true iff some single removed
(`keep = false`) segment's range contains the whole word
(`segment.start ≤ start` and `end ≤ segment.end`); a word covered only by the
union of several removed segments, like one partially overlapping removed
ranges, is classified as kept for display. -/
theorem isWordRemoved_iff_single_removed_segment (segs : List Segment) (a b : ℚ) :
    isWordRemoved segs a b = true ↔ ∃ s ∈ segs, s.keep = false ∧ s.start ≤ a ∧ b ≤ s.«end» := by
  simp only [isWordRemoved, removedRanges, List.any_eq_true, List.mem_map, List.mem_filter,
    Bool.not_eq_true', decide_eq_true_eq]
  constructor
  · rintro ⟨⟨rs, re⟩, ⟨s, ⟨hs, hk⟩, heq⟩, h1, h2⟩
    cases heq
    exact ⟨s, hs, hk, h1, h2⟩
  · rintro ⟨s, hs, hk, h1, h2⟩
    exact ⟨(s.start, s.«end»), ⟨s, ⟨hs, hk⟩, rfl⟩, h1, h2⟩

/-- C3 counterexample: `seek(-1)` on a project of duration 10 sets both the
requested playback position and `currentTime` to `-1`, which is below 0:
`seekTo` performs no clamping. -/
theorem seekTo_below_zero :
    (seekTo (-1) (mountEditor ⟨10, some []⟩)).currentTime = -1 ∧
    (seekTo (-1) (mountEditor ⟨10, some []⟩)).videoTime = -1 ∧
    ((-1 : ℚ) < 0) :=
  ⟨rfl, rfl, by norm_num⟩

/-- C3 (amended): `seek(time)` itself applies no clamping — it requests
exactly `time` from the playback collaborator and sets `currentTime` to
exactly `time`; the clamp to `[0, duration]` lives in the timeline click
handler, whose value passed to `seek` always lies in `[0, duration]`
whenever `0 ≤ duration`. -/
theorem seekTo_exact_and_timeline_clamps (t : ℚ) (ed : EditorState)
    (clientX rectLeft scrollLeft pps d : ℚ) (hd : 0 ≤ d) :
    (seekTo t ed).currentTime = t ∧ (seekTo t ed).videoTime = t ∧
    0 ≤ handleTimelineClick clientX rectLeft scrollLeft pps d ∧
    handleTimelineClick clientX rectLeft scrollLeft pps d ≤ d := by
  refine ⟨rfl, rfl, ?_, ?_⟩
  · rw [handleTimelineClick]
    exact le_max_left 0 _
  · rw [handleTimelineClick]
    exact max_le hd (min_le_right _ _)

/-- Witness for the amended C3 at concrete inputs: `seek 3` on a fresh editor
and a timeline click with duration 10. -/
theorem seekTo_exact_and_timeline_clamps_witness :
    ((0 : ℚ) ≤ 10) ∧
    ((seekTo 3 ⟨[], 0, 0⟩).currentTime = 3 ∧ (seekTo 3 ⟨[], 0, 0⟩).videoTime = 3 ∧
     0 ≤ handleTimelineClick 120 20 0 50 10 ∧ handleTimelineClick 120 20 0 50 10 ≤ 10) :=
  ⟨by norm_num, seekTo_exact_and_timeline_clamps 3 ⟨[], 0, 0⟩ 120 20 0 50 10 (by norm_num)⟩

/-- C2 counterexample: from a fresh session, upload succeeds and analyze
fails: the machine returns to Idle (the upload screen) with an error, but the
project identifier from the successful upload is still held — entering Idle
did not clear it. -/
theorem analyze_failure_retains_projectId :
    (handleUpload initialState (Except.ok samplePid) fun _ => Except.error sampleErr).screen
      = Screen.upload ∧
    (handleUpload initialState (Except.ok samplePid) fun _ => Except.error sampleErr).projectId
      = some samplePid ∧
    some samplePid ≠ (none : Option String) := by
  refine ⟨rfl, rfl, by simp⟩

/-- C2 (amended): on an upload or analyze failure the machine returns to Idle
with a non-empty error message and `projectData` unchanged (the failed run
never sets it), but the failure transition does not clear the project
identifier: after an analyze failure it still holds the id returned by the
successful upload, and after an upload failure it keeps its previous value.
Entering Idle clears the project only via reset (or export success). -/
theorem idle_after_failure (s : AppState) (pid msg m : String)
    (f : String → Except String ProjectData) :
    ((handleUpload s (Except.ok pid) fun _ => Except.error msg).screen = Screen.upload ∧
     (handleUpload s (Except.ok pid) fun _ => Except.error msg).projectId = some pid ∧
     (handleUpload s (Except.ok pid) fun _ => Except.error msg).projectData = s.projectData ∧
     (handleUpload s (Except.ok pid) fun _ => Except.error msg).error
        = some (errMessage msg uploadFallback) ∧
     errMessage msg uploadFallback ≠ "") ∧
    ((handleUpload s (Except.error m) f).screen = Screen.upload ∧
     (handleUpload s (Except.error m) f).projectId = s.projectId ∧
     (handleUpload s (Except.error m) f).projectData = s.projectData ∧
     (handleUpload s (Except.error m) f).error = some (errMessage m uploadFallback) ∧
     errMessage m uploadFallback ≠ "") ∧
    ((handleReset s).projectId = none ∧ (handleReset s).projectData = none) := by
  refine ⟨⟨rfl, rfl, rfl, rfl, ?_⟩, ⟨rfl, rfl, rfl, rfl, ?_⟩, rfl, rfl⟩
  · rw [errMessage]
    split
    · decide
    · assumption
  · rw [errMessage]
    split
    · decide
    · assumption

/-- C1 (code bug witness): concrete run — project of duration 10 with one
segment `[0,4)` kept; the user toggles it off; export is invoked; the persist
call succeeds and the export collaborator fails.  The workflow returns to
Editing, but the remounted editor is re-seeded from the original analysis
segments: the store shows `keep = true` again instead of the `keep = false`
state it had at the moment export was invoked, so the in-memory edits are
lost on export failure. -/
theorem export_failure_loses_edits :
    (editSegments (toggleSegment 0)
        (editingState samplePid ⟨10, some [⟨0, 4, true, false, none⟩]⟩)).editor
      = some ⟨[⟨0, 4, false, false, none⟩], 0, 0⟩ ∧
    (handleExport
        (editSegments (toggleSegment 0)
          (editingState samplePid ⟨10, some [⟨0, 4, true, false, none⟩]⟩))
        (Except.ok ()) (Except.error sampleErr)).screen = Screen.editor ∧
    (handleExport
        (editSegments (toggleSegment 0)
          (editingState samplePid ⟨10, some [⟨0, 4, true, false, none⟩]⟩))
        (Except.ok ()) (Except.error sampleErr)).editor
      = some ⟨[⟨0, 4, true, false, none⟩], 0, 0⟩ ∧
    ((some (⟨[⟨0, 4, true, false, none⟩], 0, 0⟩ : EditorState) : Option EditorState)
        ≠ some ⟨[⟨0, 4, false, false, none⟩], 0, 0⟩) := by
  refine ⟨?_, ?_, ?_, by decide⟩ <;> decide

end AutoEditor
